import Mathlib

/-!
Shallow embedding of `comex_silver_tracker.py`, a one-shot tracker that
downloads a daily COMEX silver-stocks spreadsheet, extracts a report date and
three totals, appends a derived row to a CSV ledger, and archives the
spreadsheet under a date-based name.

Modelling conventions:
* Python floats are modelled as rationals (`ℚ`); the Python `round(x, n)`
  (round-half-to-even on the decimal shifted value) is modelled by `pyRound`.
* Strings are handled through structural list-of-character operations so that
  every definition evaluates by kernel reduction on concrete inputs.
* The ledger file is `Option (List LedgerRow)`: `none` means the CSV file does
  not exist, `some rows` means the file exists and holds `rows` data rows.
* Exceptions reaching the top-level handler are `Except.error` values / the
  `RunOutcome.errored` outcome.
-/

namespace ComexSilver

/-- Python `round` for a value already shifted to an integer position:
round half to even (banker rounding), as CPython does. -/
def roundHalfEven (x : ℚ) : ℤ :=
  if x - (⌊x⌋ : ℚ) < 1 / 2 then ⌊x⌋
  else if 1 / 2 < x - (⌊x⌋ : ℚ) then ⌊x⌋ + 1
  else if ⌊x⌋ % 2 = 0 then ⌊x⌋ else ⌊x⌋ + 1

/-- Python `round(x, n)`: round to `n` decimal places, half to even. -/
def pyRound (x : ℚ) (n : ℕ) : ℚ :=
  (roundHalfEven (x * (10 : ℚ) ^ n) : ℚ) / (10 : ℚ) ^ n

/-- Test whether the first character list is a prefix of the second. -/
def isPrefixL : List Char → List Char → Bool
  | [], _ => true
  | _ :: _, [] => false
  | a :: as, b :: bs => a == b && isPrefixL as bs

/-- Substring containment on character lists. -/
def containsL (hay needle : List Char) : Bool :=
  match hay with
  | [] => needle.isEmpty
  | _ :: t => isPrefixL needle hay || containsL t needle

/-- Python `needle in hay` substring test. -/
def strContains (hay needle : String) : Bool :=
  containsL hay.toList needle.toList

/-- Strip leading and trailing whitespace from a character list. -/
def trimL (cs : List Char) : List Char :=
  ((cs.dropWhile Char.isWhitespace).reverse.dropWhile Char.isWhitespace).reverse

/-- Python `str.strip()`. -/
def strTrim (s : String) : String :=
  String.mk (trimL s.toList)

/-- ASCII lower-casing of a whole string (models `case=False` matching). -/
def lowerS (s : String) : String :=
  String.mk (s.toList.map Char.toLower)

/-- All characters are ASCII digits (and the list is as given; emptiness is
checked separately where needed). -/
def allDigits (cs : List Char) : Bool :=
  cs.all Char.isDigit

/-- Numeric value of a list of ASCII digit characters. -/
def digitsToNat (cs : List Char) : ℕ :=
  cs.foldl (fun a c => a * 10 + (c.toNat - 48)) 0

/-- Result of Python `float(...)`: a finite value, or one of the non-finite
floats (`nan`, `inf`, `-inf`) which the Python `float` also accepts. -/
inductive PyFloat where
  | fin (q : ℚ)
  | nan
  | inf
  | ninf
deriving DecidableEq

/-- Negation of a parsed float (for a leading minus sign). -/
def negF : PyFloat → PyFloat
  | PyFloat.fin q => PyFloat.fin (-q)
  | PyFloat.nan => PyFloat.nan
  | PyFloat.inf => PyFloat.ninf
  | PyFloat.ninf => PyFloat.inf

/-- Python numeric literals may contain underscores, but only singly and only
between two digits. -/
def underscoresOk : List Char → Bool
  | [] => true
  | [c] => !(c == '_')
  | c :: d :: rest =>
    if c == '_' then false
    else if d == '_' then
      match rest with
      | [] => false
      | e :: _ => c.isDigit && e.isDigit && underscoresOk rest
    else underscoresOk (d :: rest)

/-- Split a character list at the first exponent marker. -/
def splitExpo (cs : List Char) : List Char × Option (List Char) :=
  match cs.span (fun c => !(c == 'e' || c == 'E')) with
  | (before, []) => (before, none)
  | (before, _ :: after) => (before, some after)

/-- Parse an optionally signed run of digits as an exponent. -/
def parseExp (cs : List Char) : Option ℤ :=
  match cs with
  | '+' :: rest =>
    if rest ≠ [] ∧ allDigits rest then some (digitsToNat rest : ℤ) else none
  | '-' :: rest =>
    if rest ≠ [] ∧ allDigits rest then some (-(digitsToNat rest : ℤ)) else none
  | _ =>
    if cs ≠ [] ∧ allDigits cs then some (digitsToNat cs : ℤ) else none

/-- Parse a mantissa: digits with at most one decimal point, at least one
digit overall. -/
def parseMant (cs : List Char) : Option ℚ :=
  match cs.span (fun c => !(c == '.')) with
  | (ip, []) =>
    if ip ≠ [] ∧ allDigits ip then some (digitsToNat ip : ℚ) else none
  | (ip, _ :: fp) =>
    if allDigits ip ∧ allDigits fp ∧ (ip ≠ [] ∨ fp ≠ []) then
      some ((digitsToNat (ip ++ fp) : ℚ) / (10 : ℚ) ^ fp.length)
    else none

/-- Parse mantissa and optional exponent. -/
def parseMantExp (cs : List Char) : Option ℚ :=
  match splitExpo cs with
  | (mant, expo) =>
    match parseMant mant with
    | none => none
    | some q =>
      match expo with
      | none => some q
      | some ecs =>
        match parseExp ecs with
        | none => none
        | some e =>
          some (if 0 ≤ e then q * (10 : ℚ) ^ e.toNat else q / (10 : ℚ) ^ (-e).toNat)

/-- Unsigned part of Python `float(...)`: `inf`/`infinity`/`nan`
(case-insensitive) or a decimal literal with optional underscores. -/
def pyFloatCore (cs : List Char) : Option PyFloat :=
  let l := cs.map Char.toLower
  if l = ['i', 'n', 'f'] ∨ l = ['i', 'n', 'f', 'i', 'n', 'i', 't', 'y'] then
    some PyFloat.inf
  else if l = ['n', 'a', 'n'] then some PyFloat.nan
  else if underscoresOk cs then
    (parseMantExp (cs.filter (fun c => !(c == '_')))).map PyFloat.fin
  else none

/-- Python `float(s)` on a character list (after whitespace stripping):
handles an optional leading sign. `none` models a raised `ValueError`. -/
def pyFloatL (cs : List Char) : Option PyFloat :=
  match cs with
  | '-' :: rest => (pyFloatCore rest).map negF
  | '+' :: rest => pyFloatCore rest
  | _ => pyFloatCore cs

/-- Python `float(s)` on a string (Python strips surrounding whitespace). -/
def pyFloat (s : String) : Option PyFloat :=
  pyFloatL (trimL s.toList)

/-- Python `round(v, n)` lifted to possibly non-finite floats (rounding a
`nan`/`inf` returns it unchanged). -/
def pyRoundF (v : PyFloat) (n : ℕ) : PyFloat :=
  match v with
  | PyFloat.fin q => PyFloat.fin (pyRound q n)
  | x => x

/-- The cell cleanup of `get_clean_val` (line 67):
a string via replace and strip: commas and dollar signs removed, then outer
whitespace stripped.  Removing the two
single-character substrings is character filtering. -/
def cleanCell (v : String) : String :=
  strTrim (String.mk (v.toList.filter (fun c => !(c == ',' || c == '$'))))

/-- The row mask of `get_clean_val` (line 63): some cell of the row contains
the label, case-insensitively. -/
def rowMatches (label : String) (row : List String) : Bool :=
  row.any (fun c => strContains (lowerS c) (lowerS label))

/-- Function `get_clean_val` from `parse_xls` (lines 62-70): find the first row whose
any cell contains `label` case-insensitively, read its 0-indexed column 7,
strip commas/dollar signs, parse as a Python float and round to 3 places;
any `IndexError` (no matching row, or no column 7) or `ValueError`
(unparseable cell) yields the fallback `0.000`.  A spreadsheet is modelled as
the grid of string renderings of its cells (pandas `NaN` padding appears as
the string literal made of the characters n, a, n). -/
def get_clean_val (df : List (List String)) (label : String) : PyFloat :=
  match df.find? (rowMatches label) with
  | none => PyFloat.fin 0
  | some row =>
    match row[7]? with
    | none => PyFloat.fin 0
    | some v =>
      match pyFloat (cleanCell v) with
      | none => PyFloat.fin 0
      | some x => pyRoundF x 3

/-- Take exactly `n` digit characters from the front, returning them and the
remainder. -/
def takeExactDigits : ℕ → List Char → Option (List Char × List Char)
  | 0, cs => some ([], cs)
  | _ + 1, [] => none
  | n + 1, c :: cs =>
    if c.isDigit then
      match takeExactDigits n cs with
      | none => none
      | some (ds, rest) => some (c :: ds, rest)
    else none

/-- Try to match `\d{ml}/\d{dl}/\d{4}` at the start of the list, returning the
matched text. -/
def tryShape (ml dl : ℕ) (cs : List Char) : Option String :=
  match takeExactDigits ml cs with
  | none => none
  | some (mcs, r1) =>
    match r1 with
    | '/' :: r2 =>
      match takeExactDigits dl r2 with
      | none => none
      | some (dcs, r3) =>
        match r3 with
        | '/' :: r4 =>
          match takeExactDigits 4 r4 with
          | none => none
          | some (ycs, _) => some (String.mk (mcs ++ '/' :: (dcs ++ '/' :: ycs)))
        | _ => none
    | _ => none

/-- Attempt of the date regex at one position, in backtracking order of
greedy bounded repetition: month 2 then 1 digits, day 2 then 1 digits. -/
def tryMatchAt (cs : List Char) : Option String :=
  match tryShape 2 2 cs with
  | some m => some m
  | none =>
    match tryShape 2 1 cs with
    | some m => some m
    | none =>
      match tryShape 1 2 cs with
      | some m => some m
      | none => tryShape 1 1 cs

/-- Model of `re.search` of the pattern `(\d{1,2}/\d{1,2}/\d{4})` (line 56): leftmost
match in the string, scanning positions left to right. -/
def reSearchDate : List Char → Option String
  | [] => none
  | c :: rest =>
    match tryMatchAt (c :: rest) with
    | some m => some m
    | none => reSearchDate rest

/-- Model of the space join of a row (line 54): the cells of the row joined by
single spaces. -/
def rowString (row : List String) : String :=
  String.intercalate " " row

/-- Contribution of one row to the date scan of `parse_xls` (lines 53-59): if
the joined row contains the marker, the result of the regex search on it,
otherwise nothing. -/
def markerDate (row : List String) : Option String :=
  if strContains (rowString row) "Activity Date:" then
    reSearchDate (rowString row).toList
  else none

/-- The date-discovery loop of `parse_xls` (lines 50-59): scan rows top to
bottom; for each row containing the marker run the regex search; the loop
breaks at the first successful match (a marker row without a match does not
stop the scan).  `none` models `data_date` remaining `None`. -/
def parse_xls_date : List (List String) → Option String
  | [] => none
  | row :: rest =>
    if strContains (rowString row) "Activity Date:" then
      match reSearchDate (rowString row).toList with
      | some d => some d
      | none => parse_xls_date rest
    else parse_xls_date rest

/-- Modelled from the spec wording for claim C7 (for comparison only): the
date is sought only in the first row containing the marker, and is the first
regex match in that row. -/
def parse_xls_date_firstMarker (df : List (List String)) : Option String :=
  match df.find? (fun row => strContains (rowString row) "Activity Date:") with
  | none => none
  | some row => reSearchDate (rowString row).toList

/-- A percentage-or-number cell: the code stores either a formatted percent
string (modelled by its numeric payload followed by a percent sign when
rendered) or a bare number, an intentional type inconsistency. -/
inductive CellVal where
  | str (q : ℚ)
  | num (q : ℚ)
deriving DecidableEq

/-- One row of the master CSV ledger (the 13 columns of `COLUMNS`,
lines 14-19).  `activityDate` is `Option String` because the parsed date may
be absent (`None` in Python). -/
structure LedgerRow where
  activityDate : Option String
  registered : ℚ
  regDailyChange : ℚ
  regMonthlyChange : ℚ
  regMonthlyChangeM : ℚ
  eligible : ℚ
  total : ℚ
  dailyChange : ℚ
  monthChange : ℚ
  monthChangeM : ℚ
  pctRegisteredOfTotal : CellVal
  totalInMillions : ℚ
  pctOfStart : CellVal
deriving DecidableEq

/-- The `new_row` dictionary of `update_master_csv` (lines 92-106), computed
from the anchor (`initial_reg`/`initial_total`), the previous row
(`last_reg`/`last_total`) and the new snapshot. -/
def mkNewRow (initial_reg initial_total last_reg last_total : ℚ)
    (data_date : Option String) (registered eligible total : ℚ) : LedgerRow :=
  { activityDate := data_date
    registered := pyRound registered 3
    regDailyChange := pyRound (registered - last_reg) 3
    regMonthlyChange := pyRound (registered - initial_reg) 3
    regMonthlyChangeM := pyRound ((registered - initial_reg) / 1000000) 3
    eligible := pyRound eligible 3
    total := pyRound total 3
    dailyChange := pyRound (total - last_total) 3
    monthChange := pyRound (total - initial_total) 3
    monthChangeM := pyRound ((total - initial_total) / 1000000) 3
    pctRegisteredOfTotal :=
      if total ≠ 0 then CellVal.str (pyRound (registered / total * 100) 2)
      else CellVal.num 0
    totalInMillions := pyRound (total / 1000000) 0
    pctOfStart :=
      if initial_total ≠ 0 then
        CellVal.str ((roundHalfEven (total / initial_total * 100) : ℤ) : ℚ)
      else CellVal.num 1 }

/-- Message of the pandas `IndexError` raised by `iloc[0]` on an empty
DataFrame (line 86 when the CSV exists but has zero data rows). -/
def indexErrMsg : String := "single positional indexer is out-of-bounds"

/-- Message of the `AttributeError` raised by `None.strip()` (line 139 when
no date was found). -/
def stripNoneMsg : String := "NoneType object has no attribute strip"

/-- Message of the `TypeError` raised by `strptime(None, ...)` (line 114). -/
def strptimeNoneMsg : String := "strptime argument must be str, not NoneType"

/-- Message of the `ValueError` raised by `strptime` on a malformed date
(line 114). -/
def strptimeFmtMsg : String := "time data does not match format m/d/Y"

/-- Split a character list on the slash character (list analogue of the splitting
used to model the `strptime` pattern). -/
def splitOnSlash : List Char → List (List Char)
  | [] => [[]]
  | c :: rest =>
    if c == '/' then [] :: splitOnSlash rest
    else
      match splitOnSlash rest with
      | [] => [[c]]
      | p :: ps => (c :: p) :: ps

/-- Days in a month, with the Gregorian leap-year rule, as `datetime`
validates. -/
def daysInMonth (y m : ℕ) : ℕ :=
  if m = 2 then
    if (y % 4 = 0 ∧ y % 100 ≠ 0) ∨ y % 400 = 0 then 29 else 28
  else if m = 4 ∨ m = 6 ∨ m = 9 ∨ m = 11 then 30 else 31

/-- Model of `datetime.strptime` with the month/day/4-digit-year slash format
(line 114): three slash-separated fields, month and day of 1-2 digits, year
of exactly 4 digits, with calendar validation; `none` models a raised
`ValueError`. -/
def parseMDY (s : String) : Option (ℕ × ℕ × ℕ) :=
  match splitOnSlash s.toList with
  | [ms, ds, ys] =>
    if ms ≠ [] ∧ ms.length ≤ 2 ∧ allDigits ms ∧
       ds ≠ [] ∧ ds.length ≤ 2 ∧ allDigits ds ∧
       ys.length = 4 ∧ allDigits ys then
      if 1 ≤ digitsToNat ms ∧ digitsToNat ms ≤ 12 ∧
         1 ≤ digitsToNat ds ∧ digitsToNat ds ≤ daysInMonth (digitsToNat ys) (digitsToNat ms) ∧
         1 ≤ digitsToNat ys then
        some (digitsToNat ms, digitsToNat ds, digitsToNat ys)
      else none
    else none
  | _ => none

/-- Zero-padded two-digit rendering used by `strftime` for the year mod 100,
month and day. -/
def pad2 (n : ℕ) : String :=
  if n < 10 then "0" ++ toString n else toString n

/-- Model of `strftime` with the archive pattern (line 115): two-digit year,
month and day joined by dots around the fixed stem. -/
def archiveName (m d y : ℕ) : String :=
  "Silver_Stocks." ++ pad2 (y % 100) ++ "." ++ pad2 m ++ "." ++ pad2 d ++ ".xls"

/-- Lines 114-116 of `update_master_csv`: parse the activity date and format
the archive filename; errors model the `TypeError` on an absent date and the
`ValueError` on a malformed one. -/
def archiveResult : Option String → Except String String
  | none => Except.error strptimeNoneMsg
  | some d =>
    match parseMDY d with
    | none => Except.error strptimeFmtMsg
    | some (m, dd, y) => Except.ok (archiveName m dd y)

/-- Lines 108-116 of `update_master_csv`: the new row is appended and the CSV
rewritten first (`to_csv`, line 110), then the date is parsed for the archive
filename — so the returned ledger state holds the appended row even when the
date parse raises. -/
def finishUpdate (master : List LedgerRow) (row : LedgerRow)
    (data_date : Option String) : Option (List LedgerRow) × Except String String :=
  (some (master ++ [row]), archiveResult data_date)

/-- Function `update_master_csv` (lines 78-116) acting on the ledger-file state: if
the CSV file is absent the anchor and previous comparator are the own values
of the snapshot; if it exists, `iloc[0]` / `iloc[-1]` read the first and last data
rows (raising `IndexError` on a zero-row table, with the file left
unchanged); the new row is appended and the file rewritten, then the archive
filename is derived from the date. -/
def update_master_csv (fs : Option (List LedgerRow)) (data_date : Option String)
    (registered eligible total : ℚ) : Option (List LedgerRow) × Except String String :=
  match fs with
  | none =>
    finishUpdate []
      (mkNewRow registered total registered total data_date registered eligible total)
      data_date
  | some [] => (some [], Except.error indexErrMsg)
  | some (first :: rest) =>
    finishUpdate (first :: rest)
      (mkNewRow first.registered first.total
        ((first :: rest).getLast (List.cons_ne_nil first rest)).registered
        ((first :: rest).getLast (List.cons_ne_nil first rest)).total
        data_date registered eligible total)
      data_date

/-- The row appended by a run of `update_master_csv` (the last row of the
resulting ledger), if any. -/
def appendedRow (fs : Option (List LedgerRow)) (data_date : Option String)
    (registered eligible total : ℚ) : Option LedgerRow :=
  match (update_master_csv fs data_date registered eligible total).1 with
  | none => none
  | some l => l.getLast?

/-- The filesystem state the run manipulates: the ledger CSV, the temporary
download, and the names present in the archive folder. -/
structure SysState where
  ledger : Option (List LedgerRow)
  tempFile : Bool
  historic : List String
deriving DecidableEq

/-- Outcome of one run: normal completion with the archive name, the
duplicate-date early exit, or an exception reaching the top-level handler. -/
inductive RunOutcome where
  | done (filename : String)
  | skipped (msg : String)
  | errored (msg : String)
deriving DecidableEq

/-- Lines 151-153 of `__main__`: if a file of the archive name already exists
it is removed, then the temp file is renamed to that name. -/
def archive_move (historic : List String) (name : String) : List String :=
  (if name ∈ historic then historic.erase name else historic) ++ [name]

/-- Model of Python `str` applied to an Activity Date cell: an absent date renders as
the `nan` string after a CSV round trip. -/
def pyStrOpt : Option String → String
  | some s => s
  | none => "nan"

/-- Lines 145-153 of `__main__`: run the ledger update; on an exception the
ledger is left as the update left it and the error reaches the top-level
handler; on success the temp file is renamed into the archive folder. -/
def runUpdateAndArchive (st : SysState) (data_date : Option String)
    (registered eligible total : ℚ) : SysState × RunOutcome :=
  match update_master_csv st.ledger data_date registered eligible total with
  | (fs2, Except.error msg) => ({ st with ledger := fs2 }, RunOutcome.errored msg)
  | (fs2, Except.ok name) =>
    ({ ledger := fs2, tempFile := false, historic := archive_move st.historic name },
     RunOutcome.done name)

/-- Lines 133-153 of `__main__` after download and parse: the duplicate-date
guard (only when the CSV exists and is non-empty) compares the trimmed last
Activity Date against the trimmed new date — stripping an absent date raises
— and on equality removes the temp download and exits; otherwise the ledger
update and the archive move run. -/
def runMain (st : SysState) (data_date : Option String)
    (registered eligible total : ℚ) : SysState × RunOutcome :=
  match st.ledger with
  | some (first :: rest) =>
    match data_date with
    | none => (st, RunOutcome.errored stripNoneMsg)
    | some d =>
      if strTrim (pyStrOpt ((first :: rest).getLast (List.cons_ne_nil first rest)).activityDate)
          = strTrim d then
        ({ st with tempFile := false },
         RunOutcome.skipped ("Data for " ++ d ++ " already exists in master. Exiting."))
      else runUpdateAndArchive st data_date registered eligible total
  | _ => runUpdateAndArchive st data_date registered eligible total

/-! ## Helper lemmas -/

theorem pyRound_zero (n : ℕ) : pyRound 0 n = 0 := by
  unfold pyRound roundHalfEven
  norm_num

theorem roundHalfEven_intCast (n : ℤ) : roundHalfEven (n : ℚ) = n := by
  unfold roundHalfEven
  rw [Int.floor_intCast]
  norm_num

theorem roundHalfEven_hundred : roundHalfEven (100 : ℚ) = 100 := by
  have h := roundHalfEven_intCast 100
  norm_num at h
  exact h

theorem parse_xls_date_eq_findSome (df : List (List String)) :
    parse_xls_date df = df.findSome? markerDate := by
  induction df with
  | nil => rfl
  | cons row rest ih =>
    rw [List.findSome?_cons]
    unfold parse_xls_date markerDate
    by_cases hc : strContains (rowString row) "Activity Date:" = true
    · simp only [if_pos hc]
      cases reSearchDate (rowString row).toList with
      | none => exact ih
      | some d => rfl
    · simp only [if_neg hc]
      exact ih

/-! ## Claims -/

/-- Claim C1: for every snapshot appended to a non-empty ledger, the stored
row has derived fields equal to the spec formulas evaluated against the first
row of the ledger (the anchor) and its last row (the previous row): daily changes are
new minus previous, month changes are new minus anchor (also divided by one
million for the millions variants), each rounded to 3 decimal places
(the Python `round`, modelled by `pyRound`). -/
theorem claim1_nonempty_append_formulas (first : LedgerRow) (rest : List LedgerRow)
    (dd : Option String) (reg elig tot : ℚ) :
    ∃ r, (update_master_csv (some (first :: rest)) dd reg elig tot).1 =
        some ((first :: rest) ++ [r]) ∧
      r.regDailyChange =
        pyRound (reg - ((first :: rest).getLast (List.cons_ne_nil first rest)).registered) 3 ∧
      r.regMonthlyChange = pyRound (reg - first.registered) 3 ∧
      r.regMonthlyChangeM = pyRound ((reg - first.registered) / 1000000) 3 ∧
      r.dailyChange =
        pyRound (tot - ((first :: rest).getLast (List.cons_ne_nil first rest)).total) 3 ∧
      r.monthChange = pyRound (tot - first.total) 3 ∧
      r.monthChangeM = pyRound ((tot - first.total) / 1000000) 3 :=
  ⟨_, rfl, rfl, rfl, rfl, rfl, rfl, rfl⟩

/-- Claim C3: appending when the ledger file is absent uses the values of the
snapshot itself as both anchor and previous comparator, so the single stored row
has zero registered/total daily and monthly changes, and a percent-of-start
equivalent to one hundred percent (the string payload 100 when total is
non-zero, and the numeric sentinel 1.000 — the 100 percent ratio the code
stores when the anchor total is 0). -/
theorem claim3_empty_ledger_zero_deltas (dd : Option String) (reg elig tot : ℚ) :
    ∃ r, (update_master_csv none dd reg elig tot).1 = some [r] ∧
      r.regDailyChange = 0 ∧ r.regMonthlyChange = 0 ∧
      r.dailyChange = 0 ∧ r.monthChange = 0 ∧
      r.pctOfStart = (if tot = 0 then CellVal.num 1 else CellVal.str 100) := by
  refine ⟨mkNewRow reg tot reg tot dd reg elig tot, rfl, ?_, ?_, ?_, ?_, ?_⟩
  · show pyRound (reg - reg) 3 = 0
    rw [sub_self]; exact pyRound_zero 3
  · show pyRound (reg - reg) 3 = 0
    rw [sub_self]; exact pyRound_zero 3
  · show pyRound (tot - tot) 3 = 0
    rw [sub_self]; exact pyRound_zero 3
  · show pyRound (tot - tot) 3 = 0
    rw [sub_self]; exact pyRound_zero 3
  · show (if tot ≠ 0 then CellVal.str ((roundHalfEven (tot / tot * 100) : ℤ) : ℚ)
        else CellVal.num 1) = _
    by_cases h : tot = 0
    · simp [h]
    · rw [if_pos h, if_neg h, div_self h, one_mul, roundHalfEven_hundred]
      norm_num

/-- Claim C10: the empty-ledger rule is keyed on file existence, not row
count — on a ledger file that exists with zero data rows, `update_master_csv`
raises the positional `IndexError` from reading the first row, appends
nothing, leaves the file unchanged, and the run ends in the top-level error
handler. -/
theorem claim10_zero_row_file_raises (dd : Option String) (tf : Bool)
    (hist : List String) (reg elig tot : ℚ) :
    update_master_csv (some []) dd reg elig tot = (some [], Except.error indexErrMsg) ∧
    runMain ⟨some [], tf, hist⟩ dd reg elig tot =
      (⟨some [], tf, hist⟩, RunOutcome.errored indexErrMsg) :=
  ⟨rfl, rfl⟩

/-- Claim C2: when the ledger exists and is non-empty and the trimmed Activity
Date of its last row equals the trimmed date string of the new snapshot, the run
skips the append entirely — the ledger state is unchanged, the
already-exists message is the outcome, and the temp download is removed
before exiting. -/
theorem claim2_duplicate_date_skips (first : LedgerRow) (rest : List LedgerRow)
    (tf : Bool) (hist : List String) (d s : String) (reg elig tot : ℚ)
    (hs : ((first :: rest).getLast (List.cons_ne_nil first rest)).activityDate = some s)
    (hd : strTrim s = strTrim d) :
    runMain ⟨some (first :: rest), tf, hist⟩ (some d) reg elig tot =
      (⟨some (first :: rest), false, hist⟩,
       RunOutcome.skipped ("Data for " ++ d ++ " already exists in master. Exiting.")) := by
  simp [runMain, hs, pyStrOpt, hd]

/-- Witness for C2: a concrete one-row ledger whose date matches the new
snapshot date is left untouched and the run reports the skip. -/
theorem claim2_witness :
    runMain ⟨some [mkNewRow 1 1 1 1 (some "1/15/2024") 1 1 1], true, []⟩
        (some "1/15/2024") 2 2 2 =
      (⟨some [mkNewRow 1 1 1 1 (some "1/15/2024") 1 1 1], false, []⟩,
       RunOutcome.skipped "Data for 1/15/2024 already exists in master. Exiting.") :=
  claim2_duplicate_date_skips (mkNewRow 1 1 1 1 (some "1/15/2024") 1 1 1) [] true []
    "1/15/2024" "1/15/2024" 2 2 2 rfl rfl

/-- Claim C4: every appended row stores, in the percent-registered-of-total
column, the percent string built from registered over total times 100 rounded
to 2 decimals when total is non-zero, and the literal number 0 (not a string)
when total is zero. -/
theorem claim4_pct_registered_of_total (fs : Option (List LedgerRow))
    (dd : Option String) (reg elig tot : ℚ) (r : LedgerRow)
    (h : appendedRow fs dd reg elig tot = some r) :
    r.pctRegisteredOfTotal =
      (if tot ≠ 0 then CellVal.str (pyRound (reg / tot * 100) 2) else CellVal.num 0) := by
  match fs with
  | none =>
    have e : appendedRow none dd reg elig tot =
        some (mkNewRow reg tot reg tot dd reg elig tot) := rfl
    rw [e] at h
    injection h with h2
    rw [← h2]
    rfl
  | some [] =>
    exact Option.noConfusion h
  | some (first :: rest) =>
    have e : appendedRow (some (first :: rest)) dd reg elig tot =
        ((first :: rest) ++
          [mkNewRow first.registered first.total
            ((first :: rest).getLast (List.cons_ne_nil first rest)).registered
            ((first :: rest).getLast (List.cons_ne_nil first rest)).total
            dd reg elig tot]).getLast? := rfl
    rw [e, List.getLast?_concat] at h
    injection h with h2
    rw [← h2]
    rfl

/-- Witness for C4: the scenario snapshot of the spec appended to an absent ledger
stores the percent string with payload 60 (rendered as the 60.0 percent
string). -/
theorem claim4_witness :
    ∃ r, appendedRow none (some "1/15/2024") 150000000 100000000 250000000 = some r ∧
      r.pctRegisteredOfTotal = CellVal.str 60 := by
  refine ⟨mkNewRow 150000000 250000000 150000000 250000000 (some "1/15/2024")
    150000000 100000000 250000000, rfl, ?_⟩
  have h := claim4_pct_registered_of_total none (some "1/15/2024")
    150000000 100000000 250000000
    (mkNewRow 150000000 250000000 150000000 250000000 (some "1/15/2024")
      150000000 100000000 250000000) rfl
  rw [h, if_pos (by norm_num : (250000000 : ℚ) ≠ 0)]
  norm_num [pyRound, roundHalfEven]

/-- Claim C5: for each label, if no cell of any row case-insensitively contains
the label, or the cell at 0-indexed column 7 of the first matching row is
missing or cannot be parsed as a Python float after stripping commas and
dollar signs, `get_clean_val` returns the fallback 0.000 without raising. -/
theorem claim5_silent_zero_fallback (df : List (List String)) (label : String)
    (h : df.find? (rowMatches label) = none ∨
      ∃ row, df.find? (rowMatches label) = some row ∧
        (row[7]? = none ∨ ∃ v, row[7]? = some v ∧ pyFloat (cleanCell v) = none)) :
    get_clean_val df label = PyFloat.fin 0 := by
  rcases h with h | ⟨row, hrow, h2⟩
  · simp [get_clean_val, h]
  · rcases h2 with h2 | ⟨v, hv, hpf⟩
    · simp [get_clean_val, hrow, h2]
    · simp [get_clean_val, hrow, hv, hpf]

/-- Witness for C5: a sheet with no row containing the TOTAL ELIGIBLE label
yields the eligible value 0.000 without raising. -/
theorem claim5_witness :
    get_clean_val [["COMEX", "SILVER"], ["TOTAL REGISTERED", "a", "b", "c", "d", "e", "f", "100"]]
      "TOTAL ELIGIBLE" = PyFloat.fin 0 :=
  claim5_silent_zero_fallback
    [["COMEX", "SILVER"], ["TOTAL REGISTERED", "a", "b", "c", "d", "e", "f", "100"]]
    "TOTAL ELIGIBLE" (Or.inl (by decide))

/-- Claim C6: on a spreadsheet in which no row yields a date match the
extractor leaves the date absent, and the run then faults with an unhandled
exception — from stripping the absent date in the duplicate guard, or
(when the guard is skipped) from the unconditional date handling or the
empty-table read inside the update — reaching only the top-level handler,
never a designed error path. -/
theorem claim6_missing_date_faults (df : List (List String)) (st : SysState)
    (reg elig tot : ℚ) (h : ∀ row ∈ df, markerDate row = none) :
    parse_xls_date df = none ∧
    ∃ msg, (runMain st (parse_xls_date df) reg elig tot).2 = RunOutcome.errored msg := by
  have hnone : parse_xls_date df = none := by
    rw [parse_xls_date_eq_findSome]
    exact List.findSome?_eq_none_iff.mpr h
  refine ⟨hnone, ?_⟩
  rw [hnone]
  obtain ⟨ledger, tf, hist⟩ := st
  cases ledger with
  | none => exact ⟨strptimeNoneMsg, rfl⟩
  | some rows =>
    cases rows with
    | nil => exact ⟨indexErrMsg, rfl⟩
    | cons f r => exact ⟨stripNoneMsg, rfl⟩

/-- Witness for C6: a concrete sheet with a marker row that has no
date-shaped text produces an absent date and an errored run. -/
theorem claim6_witness :
    parse_xls_date [["Activity Date: pending"], ["TOTAL REGISTERED"]] = none ∧
    ∃ msg, (runMain ⟨none, true, []⟩
        (parse_xls_date [["Activity Date: pending"], ["TOTAL REGISTERED"]]) 1 1 1).2 =
      RunOutcome.errored msg :=
  claim6_missing_date_faults [["Activity Date: pending"], ["TOTAL REGISTERED"]]
    ⟨none, true, []⟩ 1 1 1 (by decide)

/-- Counterexample to claim C7 as stated: the claim says the date search is
performed on the first row containing the marker and scanning stops at that
first hit, but on this sheet the first marker row has no date-shaped match
(the spec-worded `parse_xls_date_firstMarker` yields `none`) while the scan in
the code continues to the second marker row and returns its date. -/
theorem claim7_counterexample :
    parse_xls_date [["Activity Date: pending"], ["Activity Date:", "1/15/2024"]] =
      some "1/15/2024" ∧
    parse_xls_date_firstMarker [["Activity Date: pending"], ["Activity Date:", "1/15/2024"]] =
      none ∧
    strContains (rowString ["Activity Date: pending"]) "Activity Date:" = true ∧
    reSearchDate (rowString ["Activity Date: pending"]).toList = none :=
  ⟨rfl, rfl, rfl, rfl⟩

/-- Claim C7 as amended: the scan searches, top to bottom, every row whose
joined cells contain the marker; the first such row in which the date pattern
matches supplies the returned date (the leftmost match of that row), and the
scan stops there — rows after it are never consulted. -/
theorem claim7_first_matching_marker_row (pre : List (List String))
    (row : List String) (post : List (List String)) (d : String)
    (hpre : ∀ r ∈ pre, markerDate r = none) (hrow : markerDate row = some d) :
    parse_xls_date (pre ++ row :: post) = some d := by
  induction pre with
  | nil =>
    rw [parse_xls_date_eq_findSome, List.nil_append, List.findSome?_cons, hrow]
  | cons p ps ih =>
    rw [List.cons_append, parse_xls_date_eq_findSome, List.findSome?_cons,
      hpre p (List.mem_cons_self p ps)]
    rw [← parse_xls_date_eq_findSome]
    exact ih (fun r hr => hpre r (List.mem_cons_of_mem p hr))

/-- Witness for the amended C7: with a markerless first row and a marker row
holding a date, the date is returned and the trailing rows are ignored. -/
theorem claim7_witness :
    parse_xls_date [["no marker"], ["Activity Date:", "1/15/2024"], ["Activity Date:", "9/9/1999"]] =
      some "1/15/2024" :=
  claim7_first_matching_marker_row [["no marker"]] ["Activity Date:", "1/15/2024"]
    [["Activity Date:", "9/9/1999"]] "1/15/2024" (by decide) rfl

/-- Claim C8: for a report date string in month/day/4-digit-year form, the
ledger updater returns the archive filename made of the fixed stem, the
two-digit year, the two-digit month and the two-digit day; and moving the
archive overwrites a file of that name rather than erroring: the name is
present afterwards, exactly once when the folder had no duplicates. -/
theorem claim8_archive_overwrite (s : String) (m d y : ℕ)
    (hp : parseMDY s = some (m, d, y)) (first : LedgerRow) (rest : List LedgerRow)
    (reg elig tot : ℚ) (hist : List String) (hnd : hist.Nodup) :
    (update_master_csv (some (first :: rest)) (some s) reg elig tot).2 =
      Except.ok (archiveName m d y) ∧
    (update_master_csv none (some s) reg elig tot).2 = Except.ok (archiveName m d y) ∧
    archiveName m d y =
      "Silver_Stocks." ++ pad2 (y % 100) ++ "." ++ pad2 m ++ "." ++ pad2 d ++ ".xls" ∧
    archiveName m d y ∈ archive_move hist (archiveName m d y) ∧
    List.count (archiveName m d y) (archive_move hist (archiveName m d y)) = 1 := by
  refine ⟨?_, ?_, rfl, ?_, ?_⟩
  · show archiveResult (some s) = _
    simp [archiveResult, hp]
  · show archiveResult (some s) = _
    simp [archiveResult, hp]
  · simp [archive_move]
  · unfold archive_move
    by_cases hmem : archiveName m d y ∈ hist
    · rw [if_pos hmem, List.count_append, List.count_erase_self,
        List.count_eq_one_of_mem hnd hmem]
      simp
    · rw [if_neg hmem, List.count_append, List.count_eq_zero.mpr hmem]
      simp

/-- Witness for C8: the scenario date of the spec yields the concrete archive name
with two-digit year, month and day, and archiving over an existing copy
leaves exactly one file of that name. -/
theorem claim8_witness :
    (update_master_csv none (some "1/15/2024") 1 1 1).2 =
      Except.ok "Silver_Stocks.24.01.15.xls" ∧
    "Silver_Stocks.24.01.15.xls" ∈
      archive_move ["Silver_Stocks.24.01.15.xls"] "Silver_Stocks.24.01.15.xls" ∧
    List.count "Silver_Stocks.24.01.15.xls"
      (archive_move ["Silver_Stocks.24.01.15.xls"] "Silver_Stocks.24.01.15.xls") = 1 := by
  have h := claim8_archive_overwrite "1/15/2024" 1 15 2024 (by decide)
    (mkNewRow 1 1 1 1 none 1 1 1) [] 1 1 1 ["Silver_Stocks.24.01.15.xls"]
    (List.nodup_cons.mpr ⟨List.not_mem_nil _, List.nodup_nil⟩)
  have hn : archiveName 1 15 2024 = "Silver_Stocks.24.01.15.xls" := rfl
  rw [hn] at h
  exact ⟨h.2.1, h.2.2.2.1, h.2.2.2.2⟩

/-- Claim C9 (implicit): `update_master_csv` rewrites the ledger with the new
row before parsing the report date, so a date string that passes the
duplicate guard but is not month/day/4-digit-year parses into an error only
after the ledger state already holds the appended row — the ledger is
mutated with no rollback. -/
theorem claim9_mutation_before_date_error (fs : Option (List LedgerRow))
    (hfs : fs ≠ some []) (s : String) (hp : parseMDY s = none) (reg elig tot : ℚ) :
    ∃ r, (update_master_csv fs (some s) reg elig tot).1 = some (fs.getD [] ++ [r]) ∧
      (update_master_csv fs (some s) reg elig tot).2 = Except.error strptimeFmtMsg := by
  match fs with
  | none =>
    refine ⟨_, rfl, ?_⟩
    show archiveResult (some s) = _
    simp [archiveResult, hp]
  | some [] => exact absurd rfl hfs
  | some (first :: rest) =>
    refine ⟨_, rfl, ?_⟩
    show archiveResult (some s) = _
    simp [archiveResult, hp]

/-- Witness for C9: an ISO-formatted date string is appended to the ledger
and only then fails the parse. -/
theorem claim9_witness :
    ∃ r, (update_master_csv none (some "2024-01-15") 1 1 1).1 = some [r] ∧
      (update_master_csv none (some "2024-01-15") 1 1 1).2 =
        Except.error strptimeFmtMsg := by
  obtain ⟨r, h1, h2⟩ := claim9_mutation_before_date_error none (by decide)
    "2024-01-15" (by decide) 1 1 1
  exact ⟨r, by simpa using h1, h2⟩

end ComexSilver
